import Mathlib

set_option maxRecDepth 100000

/-!
# SifreDB core — shallow embedding and verification

This file embeds the core of the SifreDB field-level encryption engine
(`sifredb/src/{context,error,header,kdf,blind_index,vault,deterministic}.rs`)
into Lean 4 and proves properties of the embedded definitions.

Modelling conventions:
* Byte strings are `List Nat` whose elements are byte values; where the Rust
  code narrows an integer to `u8`/`u16` the model takes the value `% 256` /
  `% 65536` explicitly.
* Rust `String` values that cross the wire (the KEK id inside a header) are
  modelled by their UTF-8 byte lists; validity of those bytes, guaranteed in
  Rust by the `String` type, appears as an explicit `isValidUtf8` hypothesis.
* The external AEAD primitives (`chacha20poly1305::ChaCha20Poly1305`,
  `aes_siv::Aes256SivAead`) are crates outside this repository; they are
  modelled as an abstract cipher record (`AEADCipher`), and theorems take the
  RFC-guaranteed behaviour of the primitive at the relevant inputs as
  hypotheses.  SHA-256, HMAC-SHA256 and HKDF (crates `sha2`, `hmac`, `hkdf`)
  are implemented concretely, so the key-derivation and blind-index paths are
  fully executable.
* Random values (the fresh DEK and nonce drawn from `OsRng` in
  `Vault::encrypt`) are explicit parameters of the embedded functions.
-/

/-! ## Byte-level helpers -/

/-- 32-bit truncation, `x mod 2^32`. -/
def mod32 (x : Nat) : Nat := x % 4294967296

/-- UTF-8 encoding of a single character (the standard 1–4 byte encoding,
as produced by Rust's `str::as_bytes`). -/
def utf8EncodeChar (c : Char) : List Nat :=
  let n := c.toNat
  if n < 128 then [n]
  else if n < 2048 then [192 ||| (n >>> 6), 128 ||| (n &&& 63)]
  else if n < 65536 then
    [224 ||| (n >>> 12), 128 ||| ((n >>> 6) &&& 63), 128 ||| (n &&& 63)]
  else
    [240 ||| (n >>> 18), 128 ||| ((n >>> 12) &&& 63),
     128 ||| ((n >>> 6) &&& 63), 128 ||| (n &&& 63)]

/-- UTF-8 bytes of a string (Rust `str::as_bytes`). -/
def strBytes (s : String) : List Nat := (s.data.map utf8EncodeChar).flatten

/-- Is `b` a UTF-8 continuation byte (`0x80..=0xBF`)? -/
def utf8Cont (b : Nat) : Bool := 128 ≤ b && b ≤ 191

/-- UTF-8 validity of a byte sequence, as checked by Rust's
`String::from_utf8` (rejects overlong encodings, surrogates and values
above U+10FFFF). -/
def isValidUtf8 : List Nat → Bool
  | [] => true
  | b :: rest =>
    if b < 128 then isValidUtf8 rest
    else if 194 ≤ b && b ≤ 223 then
      match rest with
      | c :: r => utf8Cont c && isValidUtf8 r
      | [] => false
    else if b = 224 then
      match rest with
      | c :: d :: r => (160 ≤ c && c ≤ 191) && utf8Cont d && isValidUtf8 r
      | _ => false
    else if 225 ≤ b && b ≤ 236 then
      match rest with
      | c :: d :: r => utf8Cont c && utf8Cont d && isValidUtf8 r
      | _ => false
    else if b = 237 then
      match rest with
      | c :: d :: r => (128 ≤ c && c ≤ 159) && utf8Cont d && isValidUtf8 r
      | _ => false
    else if 238 ≤ b && b ≤ 239 then
      match rest with
      | c :: d :: r => utf8Cont c && utf8Cont d && isValidUtf8 r
      | _ => false
    else if b = 240 then
      match rest with
      | c :: d :: e :: r =>
        (144 ≤ c && c ≤ 191) && utf8Cont d && utf8Cont e && isValidUtf8 r
      | _ => false
    else if 241 ≤ b && b ≤ 243 then
      match rest with
      | c :: d :: e :: r => utf8Cont c && utf8Cont d && utf8Cont e && isValidUtf8 r
      | _ => false
    else if b = 244 then
      match rest with
      | c :: d :: e :: r =>
        (128 ≤ c && c ≤ 143) && utf8Cont d && utf8Cont e && isValidUtf8 r
      | _ => false
    else false

/-- Decimal digit character for a value `0 ≤ d ≤ 9`. -/
def decChar (d : Nat) : Char := Char.ofNat (48 + d)

/-- Decimal rendering of a natural number, most significant digit first;
models the `Display` implementation of Rust's unsigned integers used by
`write!(f, "v{}", version)`. -/
def natDecimalGo : Nat → Nat → List Char → List Char
  | 0, n, acc => decChar n :: acc
  | fuel + 1, n, acc =>
    if n < 10 then decChar n :: acc
    else natDecimalGo fuel (n / 10) (decChar (n % 10) :: acc)

/-- Decimal digit characters of `n`.  The fuel `n` dominates the number of
divisions by ten, so the fuel-exhausted branch is never taken. -/
def natDecimal (n : Nat) : List Char := natDecimalGo n n []

/-- Decimal rendering of `n` as a `String`. -/
def natStr (n : Nat) : String := ⟨natDecimal n⟩

/-! ## Context model (`context.rs`) -/

/-- `EncryptionContext { tenant_id, table_name, column_name, version }`
from `context.rs`; `version` is a `u32` in Rust. -/
structure EncryptionContext where
  tenantId : Option String
  tableName : String
  columnName : String
  version : Nat
  deriving DecidableEq

/-- `EncryptionContext::new(table_name, column_name)`: no tenant, version 1. -/
def EncryptionContext.new (tableName columnName : String) : EncryptionContext :=
  ⟨none, tableName, columnName, 1⟩

/-- `EncryptionContext::with_tenant`. -/
def EncryptionContext.with_tenant (c : EncryptionContext) (tenantId : String) :
    EncryptionContext :=
  { c with tenantId := some tenantId }

/-- `EncryptionContext::with_version`. -/
def EncryptionContext.with_version (c : EncryptionContext) (version : Nat) :
    EncryptionContext :=
  { c with version := version }

/-- The `Display` implementation for `EncryptionContext`:
`"{tenant|default}|{table}|{column}|v{version}"`. -/
def ectxString (c : EncryptionContext) : String :=
  c.tenantId.getD "default" ++ "|" ++ c.tableName ++ "|" ++ c.columnName
    ++ "|v" ++ natStr c.version

/-- `IndexContext { tenant_id, table_name, column_name }` from `context.rs`. -/
structure IndexContext where
  tenantId : Option String
  tableName : String
  columnName : String
  deriving DecidableEq

/-- `IndexContext::new`. -/
def IndexContext.new (tableName columnName : String) : IndexContext :=
  ⟨none, tableName, columnName⟩

/-- `IndexContext::with_tenant`. -/
def IndexContext.with_tenant (c : IndexContext) (tenantId : String) :
    IndexContext :=
  { c with tenantId := some tenantId }

/-- The `Display` implementation for `IndexContext`:
`"{tenant|default}|{table}|{column}"`. -/
def ictxString (c : IndexContext) : String :=
  c.tenantId.getD "default" ++ "|" ++ c.tableName ++ "|" ++ c.columnName

/-- `From<&EncryptionContext> for IndexContext` (drops the version). -/
def IndexContext.ofEncryptionContext (c : EncryptionContext) : IndexContext :=
  ⟨c.tenantId, c.tableName, c.columnName⟩

/-! ## Error types (`error.rs`) -/

/-- `KeyProviderError` from `error.rs`.  The `Io` payload
(`std::io::Error`) is modelled by its message string. -/
inductive KeyProviderError where
  | KekNotFound (id : String)
  | CreationFailed (msg : String)
  | NoActiveKek
  | WrapFailed (msg : String)
  | UnwrapFailed (msg : String)
  | PepperUnavailable (msg : String)
  | Io (msg : String)
  deriving DecidableEq

/-- `Error` from `error.rs`.  The final three constructors
(`InvalidKeyLength`, `Encryption`, `Decryption`) do not appear in the
`error.rs` enum as committed but are constructed and pattern-matched by
`deterministic.rs` (and §7 of the documentation lists `InvalidKeyLength`),
so the embedding includes them. -/
inductive Error where
  | EncryptionFailed (msg : String)
  | DecryptionFailed (msg : String)
  | AuthenticationFailed
  | KeyProvider (e : KeyProviderError)
  | InvalidHeader (msg : String)
  | KeyDerivation
  | UnsupportedVersion (version : Nat) (supported : String)
  | IndexGenerationFailed (msg : String)
  | Io (msg : String)
  | InvalidKeyLength (expected actual : Nat)
  | Encryption (msg : String)
  | Decryption (msg : String)
  deriving DecidableEq

/-- Decidable equality of `Except` results (not provided by this core
library version). -/
instance exceptDecEq {e a : Type} [DecidableEq e] [DecidableEq a] :
    DecidableEq (Except e a) := fun x y =>
  match x, y with
  | .ok u, .ok v =>
    if h : u = v then .isTrue (by rw [h]) else .isFalse (by simp [h])
  | .error u, .error v =>
    if h : u = v then .isTrue (by rw [h]) else .isFalse (by simp [h])
  | .ok _, .error _ => .isFalse (by simp)
  | .error _, .ok _ => .isFalse (by simp)

/-! ## Header codec (`header.rs`) -/

/-- `PROTOCOL_VERSION` from `header.rs`. -/
def PROTOCOL_VERSION : Nat := 1

/-- `EncryptionHeader` from `header.rs`.  `kek_id` is a Rust `String`;
it is modelled by its UTF-8 bytes.  `flags` is the raw `HeaderFlags` byte. -/
structure EncryptionHeader where
  version : Nat
  kekId : List Nat
  wrappedDek : List Nat
  flags : Nat
  nonce : List Nat
  deriving DecidableEq

/-- `EncryptionHeader::new`: sets `version` to `PROTOCOL_VERSION`. -/
def EncryptionHeader.new (kekId wrappedDek : List Nat) (flags : Nat)
    (nonce : List Nat) : EncryptionHeader :=
  ⟨PROTOCOL_VERSION, kekId, wrappedDek, flags, nonce⟩

/-- `EncryptionHeader::to_bytes`.  The two-byte wrapped-DEK length is the
big-endian `u16` cast of the length, the one-byte lengths and flags are
`u8` casts (`% 256`); the casts are no-ops after the bounds checks. -/
def EncryptionHeader.to_bytes (h : EncryptionHeader) : Except Error (List Nat) :=
  if h.kekId.length > 255 then
    .error (.InvalidHeader ("KEK ID too long: " ++ toString h.kekId.length
      ++ " bytes (max: 255)"))
  else if h.wrappedDek.length > 65535 then
    .error (.InvalidHeader ("Wrapped DEK too long: " ++ toString h.wrappedDek.length
      ++ " bytes (max: 65535)"))
  else if h.nonce.length > 255 then
    .error (.InvalidHeader ("Nonce too long: " ++ toString h.nonce.length
      ++ " bytes (max: 255)"))
  else
    .ok ([h.version] ++ [h.kekId.length % 256] ++ h.kekId
      ++ [h.wrappedDek.length % 65536 / 256, h.wrappedDek.length % 65536 % 256]
      ++ h.wrappedDek ++ [h.flags % 256] ++ [h.nonce.length % 256] ++ h.nonce)

/-- `EncryptionHeader::from_bytes`.  Positions mirror the `pos` cursor of
the Rust parser; `data[pos]` is `data.getD pos 0` (always guarded by the
preceding bounds checks).  `String::from_utf8` on the KEK id bytes is the
UTF-8 validity check; the parsed id keeps the same bytes. -/
def EncryptionHeader.from_bytes (data : List Nat) :
    Except Error (EncryptionHeader × Nat) :=
  if data.isEmpty then .error (.InvalidHeader "Empty header data")
  else
    let version := data.getD 0 0
    if version ≠ PROTOCOL_VERSION then
      .error (.UnsupportedVersion version "1")
    else if 1 ≥ data.length then .error (.InvalidHeader "Missing KEK ID length")
    else
      let kekIdLen := data.getD 1 0
      if 2 + kekIdLen > data.length then .error (.InvalidHeader "KEK ID truncated")
      else
        let kekId := (data.drop 2).take kekIdLen
        if ¬ isValidUtf8 kekId then
          .error (.InvalidHeader "Invalid KEK ID UTF-8")
        else
          let pos1 := 2 + kekIdLen
          if pos1 + 2 > data.length then
            .error (.InvalidHeader "Missing wrapped DEK length")
          else
            let wrappedDekLen := data.getD pos1 0 * 256 + data.getD (pos1 + 1) 0
            let pos2 := pos1 + 2
            if pos2 + wrappedDekLen > data.length then
              .error (.InvalidHeader "Wrapped DEK truncated")
            else
              let wrappedDek := (data.drop pos2).take wrappedDekLen
              let pos3 := pos2 + wrappedDekLen
              if pos3 ≥ data.length then .error (.InvalidHeader "Missing flags")
              else
                let flags := data.getD pos3 0
                let pos4 := pos3 + 1
                if pos4 ≥ data.length then
                  .error (.InvalidHeader "Missing nonce length")
                else
                  let nonceLen := data.getD pos4 0
                  let pos5 := pos4 + 1
                  if pos5 + nonceLen > data.length then
                    .error (.InvalidHeader "Nonce truncated")
                  else
                    let nonce := (data.drop pos5).take nonceLen
                    .ok (⟨version, kekId, wrappedDek, flags, nonce⟩, pos5 + nonceLen)

/-! ## SHA-256 (crate `sha2`), HMAC (crate `hmac`), HKDF (crate `hkdf`)

Concrete implementations per FIPS 180-4, RFC 2104 and RFC 5869, operating on
byte lists.  These model the external RustCrypto crates the core calls. -/

/-- SHA-256 round constants (FIPS 180-4 §4.2.2, in decimal). -/
def K256 : List Nat :=
  [1116352408, 1899447441, 3049323471, 3921009573, 961987163, 1508970993,
   2453635748, 2870763221, 3624381080, 310598401, 607225278, 1426881987,
   1925078388, 2162078206, 2614888103, 3248222580, 3835390401, 4022224774,
   264347078, 604807628, 770255983, 1249150122, 1555081692, 1996064986,
   2554220882, 2821834349, 2952996808, 3210313671, 3336571891, 3584528711,
   113926993, 338241895, 666307205, 773529912, 1294757372, 1396182291,
   1695183700, 1986661051, 2177026350, 2456956037, 2730485921, 2820302411,
   3259730800, 3345764771, 3516065817, 3600352804, 4094571909, 275423344,
   430227734, 506948616, 659060556, 883997877, 958139571, 1322822218,
   1537002063, 1747873779, 1955562222, 2024104815, 2227730452, 2361852424,
   2428436474, 2756734187, 3204031479, 3329325298]

/-- Right rotation of a 32-bit word. -/
def rotr32 (n x : Nat) : Nat := mod32 ((x >>> n) ||| (x <<< (32 - n)))

/-- FIPS 180-4 `Σ0`. -/
def bSig0 (x : Nat) : Nat := rotr32 2 x ^^^ rotr32 13 x ^^^ rotr32 22 x

/-- FIPS 180-4 `Σ1`. -/
def bSig1 (x : Nat) : Nat := rotr32 6 x ^^^ rotr32 11 x ^^^ rotr32 25 x

/-- FIPS 180-4 `σ0`. -/
def sSig0 (x : Nat) : Nat := rotr32 7 x ^^^ rotr32 18 x ^^^ (x >>> 3)

/-- FIPS 180-4 `σ1`. -/
def sSig1 (x : Nat) : Nat := rotr32 17 x ^^^ rotr32 19 x ^^^ (x >>> 10)

/-- FIPS 180-4 `Ch`: choice; `¬x` is complement within 32 bits. -/
def chOp (x y z : Nat) : Nat := (x &&& y) ^^^ ((x ^^^ 4294967295) &&& z)

/-- FIPS 180-4 `Maj`: majority. -/
def majOp (x y z : Nat) : Nat := (x &&& y) ^^^ (x &&& z) ^^^ (y &&& z)

/-- The eight 32-bit words of SHA-256 hash state. -/
structure Hash8 where
  a : Nat
  b : Nat
  c : Nat
  d : Nat
  e : Nat
  f : Nat
  g : Nat
  h : Nat
  deriving DecidableEq

/-- SHA-256 initial hash value. -/
def sha256Init : Hash8 :=
  ⟨1779033703, 3144134277, 1013904242, 2773480762,
   1359893119, 2600822924, 528734635, 1541459225⟩

/-- Pack bytes into big-endian 32-bit words (4 bytes per word). -/
def bytesToWords : List Nat → List Nat
  | a :: b :: c :: d :: rest =>
    (a * 16777216 + b * 65536 + c * 256 + d) :: bytesToWords rest
  | _ => []

/-- Message-schedule extension: append `n` more words to `w`. -/
def wGo : Nat → List Nat → List Nat
  | 0, w => w
  | n + 1, w =>
    wGo n (w ++ [mod32 (sSig1 (w.getD (w.length - 2) 0) + w.getD (w.length - 7) 0
      + sSig0 (w.getD (w.length - 15) 0) + w.getD (w.length - 16) 0)])

/-- The 64-word message schedule of a 16-word block. -/
def buildW (w16 : List Nat) : List Nat := wGo 48 w16

/-- One SHA-256 round; `kw` is the pair of round constant and schedule word. -/
def roundStep (s : Hash8) (kw : Nat × Nat) : Hash8 :=
  let t1 := mod32 (s.h + bSig1 s.e + chOp s.e s.f s.g + kw.1 + kw.2)
  let t2 := mod32 (bSig0 s.a + majOp s.a s.b s.c)
  ⟨mod32 (t1 + t2), s.a, s.b, s.c, mod32 (s.d + t1), s.e, s.f, s.g⟩

/-- SHA-256 compression of one 64-byte block into the running state. -/
def compress (s : Hash8) (block : List Nat) : Hash8 :=
  let w := buildW (bytesToWords block)
  let r := (K256.zip w).foldl roundStep s
  ⟨mod32 (s.a + r.a), mod32 (s.b + r.b), mod32 (s.c + r.c), mod32 (s.d + r.d),
   mod32 (s.e + r.e), mod32 (s.f + r.f), mod32 (s.g + r.g), mod32 (s.h + r.h)⟩

/-- Big-endian bytes of a 64-bit value (the padded message length field). -/
def beBytes8 (n : Nat) : List Nat :=
  [n / 72057594037927936 % 256, n / 281474976710656 % 256,
   n / 1099511627776 % 256, n / 4294967296 % 256,
   n / 16777216 % 256, n / 65536 % 256, n / 256 % 256, n % 256]

/-- SHA-256 padding: `0x80`, zeros to 56 mod 64, then the bit length. -/
def padMsg (msg : List Nat) : List Nat :=
  msg ++ [128] ++ List.replicate ((119 - msg.length % 64) % 64) 0
    ++ beBytes8 (msg.length * 8)

/-- Split into 64-byte blocks (`fuel` dominates the number of blocks). -/
def chunk64Go : Nat → List Nat → List (List Nat)
  | 0, _ => []
  | fuel + 1, l => if l = [] then [] else l.take 64 :: chunk64Go fuel (l.drop 64)

/-- Split into 64-byte blocks. -/
def chunk64 (l : List Nat) : List (List Nat) := chunk64Go l.length l

/-- Big-endian bytes of a 32-bit word. -/
def word32Bytes (w : Nat) : List Nat :=
  [w / 16777216 % 256, w / 65536 % 256, w / 256 % 256, w % 256]

/-- SHA-256 of a byte list (32-byte digest). -/
def sha256 (msg : List Nat) : List Nat :=
  let s := (chunk64 (padMsg msg)).foldl compress sha256Init
  word32Bytes s.a ++ word32Bytes s.b ++ word32Bytes s.c ++ word32Bytes s.d
    ++ word32Bytes s.e ++ word32Bytes s.f ++ word32Bytes s.g ++ word32Bytes s.h

/-- HMAC-SHA256 (RFC 2104): keys longer than the 64-byte block are hashed,
shorter keys are zero-padded; inner pad `0x36`, outer pad `0x5c`. -/
def hmacSha256 (key msg : List Nat) : List Nat :=
  let k0 := if key.length > 64 then sha256 key else key
  let kp := k0 ++ List.replicate (64 - k0.length) 0
  let ipad := kp.map (fun b => b ^^^ 54)
  let opad := kp.map (fun b => b ^^^ 92)
  sha256 (opad ++ sha256 (ipad ++ msg))

/-- HKDF-Extract (RFC 5869): `PRK = HMAC-Hash(salt, IKM)`. -/
def hkdfExtract (salt ikm : List Nat) : List Nat := hmacSha256 salt ikm

/-- HKDF-Expand block iteration: returns the concatenated output blocks and
the last block `T(n)`. -/
def hkdfGo (prk info : List Nat) : Nat → List Nat × List Nat
  | 0 => ([], [])
  | n + 1 =>
    let p := hkdfGo prk info n
    let t := hmacSha256 prk (p.2 ++ info ++ [n + 1])
    (p.1 ++ t, t)

/-- HKDF-Expand (RFC 5869): fails iff the requested length exceeds
`255 * HashLen`; this is the only failure the `hkdf` crate's `expand`
reports. -/
def hkdfExpand (prk info : List Nat) (l : Nat) : Option (List Nat) :=
  if l > 255 * 32 then none
  else some ((hkdfGo prk info ((l + 31) / 32)).1.take l)

/-! ## Key derivation (`kdf.rs`) -/

/-- `DEK_SIZE` from `kdf.rs`. -/
def DEK_SIZE : Nat := 32

/-- `derive_dek(kek, context)` from `kdf.rs`.  `Hkdf::<Sha256>::new(None, kek)`
performs HKDF-Extract with the RFC 5869 default salt (32 zero bytes) and the
KEK as input key material; `expand` then uses the context's canonical string
(UTF-8 bytes) as `info`. -/
def derive_dek (kek : List Nat) (context : EncryptionContext) :
    Except Error (List Nat) :=
  let prk := hkdfExtract (List.replicate 32 0) kek
  let info := strBytes (ectxString context)
  match hkdfExpand prk info DEK_SIZE with
  | none => .error .KeyDerivation
  | some dek => .ok dek

/-- Follows the spec's words for §4.2 / claim C5: "HKDF-Expand (no
extract/salt — the KEK itself is the pseudorandom key; `info` = context
canonical string) producing a 32-byte output".  Kept separate from
`derive_dek` (translated from `kdf.rs`) to compare the two. -/
def specDeriveDek (kek : List Nat) (context : EncryptionContext) :
    Option (List Nat) :=
  hkdfExpand kek (strBytes (ectxString context)) 32

/-! ## Blind index (`blind_index.rs`) -/

/-- `BLIND_INDEX_SIZE` from `blind_index.rs`. -/
def BLIND_INDEX_SIZE : Nat := 16

/-- `generate_blind_index(provider, value, context)` from `blind_index.rs`.
The provider is represented by the result of its `get_pepper()` call — the
only provider operation the function uses.  `mac.update(value)` followed by
`mac.update(context_str)` is HMAC over the concatenation.
`Hmac::new_from_slice` accepts every key length, so its error branch
(`IndexGenerationFailed("Invalid pepper: ...")`) is unreachable and the
model's HMAC is total. -/
def generate_blind_index (getPepper : Except KeyProviderError (Option (List Nat)))
    (value : List Nat) (context : IndexContext) : Except Error (List Nat) :=
  match getPepper with
  | .error e => .error (.KeyProvider e)
  | .ok none => .error (.IndexGenerationFailed "Pepper not available")
  | .ok (some pepper) =>
    .ok ((hmacSha256 pepper (value ++ strBytes (ictxString context))).take
      BLIND_INDEX_SIZE)

/-! ## Vault (`vault.rs`) -/

/-- `NONCE_SIZE` from `vault.rs` (ChaCha20-Poly1305, 96-bit nonce). -/
def NONCE_SIZE : Nat := 12

/-- Abstract AEAD primitive: models an external AEAD crate
(`chacha20poly1305` or `aes_siv`).  `enc key nonce aad msg` is the
ciphertext-with-tag; `dec` returns `none` on authentication failure. -/
structure AEADCipher where
  enc : List Nat → List Nat → List Nat → List Nat → List Nat
  dec : List Nat → List Nat → List Nat → List Nat → Option (List Nat)

/-- The operations `Vault` uses from its `KeyProvider` (`key_provider.rs`),
by result: `current_kek_id` (the id's UTF-8 bytes), `wrap_dek`,
`unwrap_dek`. -/
structure KeyProviderOps where
  currentKekId : Except KeyProviderError (List Nat)
  wrapDek : List Nat → List Nat → Except KeyProviderError (List Nat)
  unwrapDek : List Nat → List Nat → Except KeyProviderError (List Nat)

/-- `CipherMode` from `vault.rs` (single variant). -/
inductive CipherMode where
  | chaCha20Poly1305
  deriving DecidableEq

/-- `Vault { provider, cipher_mode }` from `vault.rs`. -/
structure Vault where
  provider : KeyProviderOps
  cipherMode : CipherMode

/-- `Vault::encrypt`.  The fresh random DEK (`generate_dek()`, 32 bytes) and
the fresh random nonce (`OsRng`, `NONCE_SIZE` bytes) are explicit arguments;
`cipher` is the external ChaCha20-Poly1305 implementation.
`ChaCha20Poly1305::new_from_slice` fails iff the key is not 32 bytes
(`EncryptionFailed("Invalid DEK: ...")`); the AEAD `encrypt` call itself
cannot fail for any representable plaintext, so `cipher.enc` is total.
The associated data is the context's canonical string. -/
def Vault.encrypt (cipher : AEADCipher) (v : Vault) (dek nonce plaintext : List Nat)
    (context : EncryptionContext) : Except Error (List Nat) :=
  match v.provider.currentKekId with
  | .error e => .error (.KeyProvider e)
  | .ok kekId =>
    match v.provider.wrapDek kekId dek with
    | .error e => .error (.KeyProvider e)
    | .ok wrappedDek =>
      match v.cipherMode with
      | .chaCha20Poly1305 =>
        if dek.length = 32 then
          let aad := strBytes (ectxString context)
          let ciphertext := cipher.enc dek nonce aad plaintext
          let header := EncryptionHeader.new kekId wrappedDek 0 nonce
          match header.to_bytes with
          | .error e => .error e
          | .ok headerBytes => .ok (headerBytes ++ ciphertext)
        else .error (.EncryptionFailed "Invalid DEK: Invalid Length")

/-- `Vault::decrypt`.  Parses the header, unwraps the DEK, rejects a DEK
that is not 32 bytes (`DecryptionFailed("Invalid DEK: ...")`), rejects a
header nonce that is not `NONCE_SIZE` bytes
(`DecryptionFailed("Invalid nonce size")`), then AEAD-decrypts with the
caller-supplied context's canonical string as associated data; a tag
mismatch is `AuthenticationFailed`. -/
def Vault.decrypt (cipher : AEADCipher) (v : Vault) (ciphertext : List Nat)
    (context : EncryptionContext) : Except Error (List Nat) :=
  match EncryptionHeader.from_bytes ciphertext with
  | .error e => .error e
  | .ok (header, headerLen) =>
    let encryptedData := ciphertext.drop headerLen
    match v.provider.unwrapDek header.kekId header.wrappedDek with
    | .error e => .error (.KeyProvider e)
    | .ok dek =>
      match v.cipherMode with
      | .chaCha20Poly1305 =>
        if dek.length = 32 then
          if header.nonce.length = NONCE_SIZE then
            let aad := strBytes (ectxString context)
            match cipher.dec dek header.nonce aad encryptedData with
            | none => .error .AuthenticationFailed
            | some plaintext => .ok plaintext
          else .error (.DecryptionFailed "Invalid nonce size")
        else .error (.DecryptionFailed "Invalid DEK: Invalid Length")

/-! ## Deterministic vault (`deterministic.rs`) -/

/-- `DeterministicVault { key }` from `deterministic.rs`. -/
structure DeterministicVault where
  key : List Nat

/-- `DeterministicVault::new`: the key must be exactly 64 bytes. -/
def DeterministicVault.new (key : List Nat) : Except Error DeterministicVault :=
  if key.length ≠ 64 then .error (.InvalidKeyLength 64 key.length)
  else .ok ⟨key⟩

/-- The `Nonce::default()` value used by the deterministic vault:
an all-zero 16-byte (128-bit) AES-SIV nonce. -/
def sivZeroNonce : List Nat := List.replicate 16 0

/-- `DeterministicVault::encrypt`: AES-256-SIV (abstract `siv` cipher) with
the all-zero default nonce and the context's canonical string as associated
data.  `Aes256SivAead::new_from_slice` fails iff the key is not 64 bytes
(`Error::Encryption`); the SIV `encrypt` call itself cannot fail. -/
def DeterministicVault.encrypt (siv : AEADCipher) (v : DeterministicVault)
    (plaintext : List Nat) (context : EncryptionContext) :
    Except Error (List Nat) :=
  if v.key.length = 64 then
    let aad := strBytes (ectxString context)
    .ok (siv.enc v.key sivZeroNonce aad plaintext)
  else .error (.Encryption "Failed to create AES-SIV cipher: Invalid Length")

/-- `DeterministicVault::decrypt`: reverses `encrypt`; any SIV
authentication failure is reported as `Error::Decryption`. -/
def DeterministicVault.decrypt (siv : AEADCipher) (v : DeterministicVault)
    (ciphertext : List Nat) (context : EncryptionContext) :
    Except Error (List Nat) :=
  if v.key.length = 64 then
    let aad := strBytes (ectxString context)
    match siv.dec v.key sivZeroNonce aad ciphertext with
    | none => .error (.Decryption "AES-SIV decryption failed: aead::Error")
    | some plaintext => .ok plaintext
  else .error (.Decryption "Failed to create AES-SIV cipher: Invalid Length")

/-! ## A concrete cipher instance for witnesses

A transparent, trivially correct AEAD used only to instantiate the abstract
cipher parameter in witness theorems: the "ciphertext" is the key, nonce and
associated data (each length-prefixed) followed by the message, and
decryption checks that prefix. -/

/-- Length-prefix a byte list. -/
def lenPre (l : List Nat) : List Nat := l.length :: l

/-- Witness cipher encryption. -/
def tagEnc (key nonce aad msg : List Nat) : List Nat :=
  lenPre key ++ lenPre nonce ++ lenPre aad ++ msg

/-- Witness cipher decryption: succeeds iff key, nonce and aad match. -/
def tagDec (key nonce aad ct : List Nat) : Option (List Nat) :=
  let pre := lenPre key ++ lenPre nonce ++ lenPre aad
  if ct.take pre.length = pre then some (ct.drop pre.length) else none

/-- The witness cipher. -/
def tagCipher : AEADCipher := ⟨tagEnc, tagDec⟩

/-! ## Concrete fixtures used by witnesses and counterexamples -/

/-- A provider like the mock in `blind_index.rs`: identity wrap/unwrap,
fixed current KEK id `"test_kek"`. -/
def idProvider : KeyProviderOps :=
  ⟨.ok (strBytes "test_kek"), fun _ d => .ok d, fun _ w => .ok w⟩

/-- The vault over `idProvider` in the default cipher mode. -/
def idVault : Vault := ⟨idProvider, .chaCha20Poly1305⟩

/-- `EncryptionContext::new("users", "email")` — tenant `None`. -/
def ctxNone : EncryptionContext := ⟨none, "users", "email", 1⟩

/-- The same context with tenant `Some("default")`: a different value whose
canonical string collides with `ctxNone`'s. -/
def ctxDefault : EncryptionContext := ⟨some "default", "users", "email", 1⟩

/-- The spec's §8 concrete KEK: 32 bytes of `0x01`. -/
def kekOnes : List Nat := List.replicate 32 1

/-- The spec's §8 concrete scenario context at a given version:
tenant `"tenant_123"`, table `"users"`, column `"email"`. -/
def ctxSpec (version : Nat) : EncryptionContext :=
  ⟨some "tenant_123", "users", "email", version⟩

/-- Value of a most-significant-first decimal digit character list. -/
def digitsVal (l : List Char) : Nat :=
  l.foldl (fun a c => a * 10 + (c.toNat - 48)) 0

/-- Does the string avoid the `'|'` delimiter?  (The canonical-string
injectivity constraint the spec documents for context fields.) -/
def noPipe (s : String) : Bool := !(s.data.contains '|')

/-! ## List helper lemmas -/

/-- Reading just past a known prefix. -/
theorem getD_after (l₁ l₂ : List Nat) (d : Nat) :
    (l₁ ++ l₂).getD l₁.length d = l₂.getD 0 d := by
  simp [List.getD, List.getElem?_append_right]

/-- Reading one byte further past a known prefix. -/
theorem getD_after1 (l₁ l₂ : List Nat) (d : Nat) :
    (l₁ ++ l₂).getD (l₁.length + 1) d = l₂.getD 1 d := by
  simp [List.getD, List.getElem?_append_right]

/-- Dropping a known prefix. -/
theorem drop_after (l₁ l₂ : List Nat) : (l₁ ++ l₂).drop l₁.length = l₂ :=
  List.drop_left l₁ l₂

/-- Taking a known prefix. -/
theorem take_after (l₁ l₂ : List Nat) : (l₁ ++ l₂).take l₁.length = l₁ :=
  List.take_left l₁ l₂

/-! ## Header codec lemmas -/

/-- Within its bounds, `to_bytes` produces the concatenated wire format with
all length casts reduced. -/
theorem to_bytes_ok (h : EncryptionHeader)
    (hk : h.kekId.length ≤ 255) (hw : h.wrappedDek.length ≤ 65535)
    (hn : h.nonce.length ≤ 255) (hfl : h.flags < 256) :
    h.to_bytes = .ok (h.version :: h.kekId.length :: (h.kekId
      ++ (h.wrappedDek.length / 256 :: h.wrappedDek.length % 256 :: (h.wrappedDek
      ++ (h.flags :: h.nonce.length :: h.nonce))))) := by
  unfold EncryptionHeader.to_bytes
  rw [if_neg (by omega), if_neg (by omega), if_neg (by omega)]
  have e1 : h.kekId.length % 256 = h.kekId.length := Nat.mod_eq_of_lt (by omega)
  have e2 : h.wrappedDek.length % 65536 = h.wrappedDek.length :=
    Nat.mod_eq_of_lt (by omega)
  have e3 : h.wrappedDek.length % 256 = h.wrappedDek.length % 256 := rfl
  have e4 : h.nonce.length % 256 = h.nonce.length := Nat.mod_eq_of_lt (by omega)
  have e5 : h.flags % 256 = h.flags := Nat.mod_eq_of_lt hfl
  rw [e1, e2, e4, e5]
  have e6 : h.wrappedDek.length % 256 = h.wrappedDek.length % 65536 % 256 := by
    rw [e2]
  simp [List.append_assoc]

/-- Parsing the wire format (with arbitrary trailing data) recovers the
fields and consumes exactly the header bytes. -/
theorem from_bytes_wire (k w n extra : List Nat) (fl : Nat)
    (hk : k.length ≤ 255) (hw : w.length ≤ 65535) (hn : n.length ≤ 255)
    (hu : isValidUtf8 k = true) :
    EncryptionHeader.from_bytes (1 :: k.length :: (k
      ++ (w.length / 256 :: w.length % 256 :: (w
      ++ (fl :: n.length :: (n ++ extra)))))) =
    .ok (⟨1, k, w, fl, n⟩, 6 + k.length + w.length + n.length) := by
  set d : List Nat := 1 :: k.length :: (k
      ++ (w.length / 256 :: w.length % 256 :: (w
      ++ (fl :: n.length :: (n ++ extra))))) with hd
  have hlen : d.length = 6 + k.length + w.length + n.length + extra.length := by
    simp [hd]; omega
  have hsplit2 : d = ([1, k.length] ++ k)
      ++ (w.length / 256 :: w.length % 256 :: (w
      ++ (fl :: n.length :: (n ++ extra)))) := by simp [hd]
  have hsplit4 : d = ([1, k.length] ++ k ++ [w.length / 256, w.length % 256])
      ++ (w ++ (fl :: n.length :: (n ++ extra))) := by simp [hd]
  have hsplit5 : d = ([1, k.length] ++ k ++ [w.length / 256, w.length % 256] ++ w)
      ++ (fl :: n.length :: (n ++ extra)) := by simp [hd]
  have hsplit6 : d = ([1, k.length] ++ k ++ [w.length / 256, w.length % 256] ++ w
      ++ [fl, n.length]) ++ (n ++ extra) := by simp [hd]
  have g0 : d.getD 0 0 = 1 := rfl
  have g1 : d.getD 1 0 = k.length := rfl
  have gdrop2 : d.drop 2 = k ++ (w.length / 256 :: w.length % 256 :: (w
      ++ (fl :: n.length :: (n ++ extra)))) := rfl
  have gkek : (d.drop 2).take k.length = k := by
    rw [gdrop2]; exact take_after _ _
  have gb1 : d.getD (2 + k.length) 0 = w.length / 256 := by
    rw [hsplit2, show 2 + k.length = ([1, k.length] ++ k : List Nat).length by
      simp; omega]
    rw [getD_after]; rfl
  have gb2 : d.getD (2 + k.length + 1) 0 = w.length % 256 := by
    rw [hsplit2, show 2 + k.length = ([1, k.length] ++ k : List Nat).length by
      simp; omega]
    rw [getD_after1]; rfl
  have gwlen : w.length / 256 * 256 + w.length % 256 = w.length := by omega
  have gw : (d.drop (2 + k.length + 2)).take w.length = w := by
    rw [hsplit4, show 2 + k.length + 2
        = ([1, k.length] ++ k ++ [w.length / 256, w.length % 256] : List Nat).length by
      simp; omega]
    rw [drop_after]
    exact take_after _ _
  have gfl : d.getD (2 + k.length + 2 + w.length) 0 = fl := by
    rw [hsplit5, show 2 + k.length + 2 + w.length
        = ([1, k.length] ++ k ++ [w.length / 256, w.length % 256] ++ w : List Nat).length by
      simp; omega]
    rw [getD_after]; rfl
  have gnl : d.getD (2 + k.length + 2 + w.length + 1) 0 = n.length := by
    rw [hsplit5, show 2 + k.length + 2 + w.length
        = ([1, k.length] ++ k ++ [w.length / 256, w.length % 256] ++ w : List Nat).length by
      simp; omega]
    rw [getD_after1]; rfl
  have gn : (d.drop (2 + k.length + 2 + w.length + 1 + 1)).take n.length = n := by
    rw [hsplit6, show 2 + k.length + 2 + w.length + 1 + 1
        = ([1, k.length] ++ k ++ [w.length / 256, w.length % 256] ++ w
            ++ [fl, n.length] : List Nat).length by
      simp; omega]
    rw [drop_after]
    exact take_after _ _
  unfold EncryptionHeader.from_bytes
  rw [if_neg (by simp [hd])]
  simp only [g0, g1, PROTOCOL_VERSION]
  rw [if_neg (by omega)]
  rw [if_neg (by omega : ¬ 1 ≥ d.length)]
  rw [if_neg (by omega : ¬ 2 + k.length > d.length)]
  simp only [gkek]
  rw [if_neg (by simp [hu])]
  rw [if_neg (by omega : ¬ 2 + k.length + 2 > d.length)]
  simp only [gb1, gb2, gwlen]
  rw [if_neg (by omega : ¬ 2 + k.length + 2 + w.length > d.length)]
  simp only [gw]
  rw [if_neg (by omega : ¬ 2 + k.length + 2 + w.length ≥ d.length)]
  simp only [gfl]
  rw [if_neg (by omega : ¬ 2 + k.length + 2 + w.length + 1 ≥ d.length)]
  simp only [gnl]
  rw [if_neg (by omega : ¬ 2 + k.length + 2 + w.length + 1 + 1 + n.length > d.length)]
  simp only [gn]
  rw [show 2 + k.length + 2 + w.length + 1 + 1 + n.length
      = 6 + k.length + w.length + n.length by omega]

/-- C3: Header round trip — for every header built via `EncryptionHeader::new`
whose `kek_id` is at most 255 bytes (of valid UTF-8, as the Rust `String` type
guarantees), `wrapped_dek` at most 65535 bytes and `nonce` at most 255 bytes
(`flags` being a byte, as `HeaderFlags` guarantees),
`from_bytes(to_bytes(H))` succeeds and returns a structurally equal header
together with `bytes_consumed` equal to `to_bytes()`'s length. -/
theorem header_round_trip (k w n : List Nat) (fl : Nat)
    (hk : k.length ≤ 255) (hw : w.length ≤ 65535) (hn : n.length ≤ 255)
    (hu : isValidUtf8 k = true) (hfl : fl < 256) :
    ∃ bts, (EncryptionHeader.new k w fl n).to_bytes = .ok bts ∧
      EncryptionHeader.from_bytes bts
        = .ok (EncryptionHeader.new k w fl n, bts.length) := by
  show ∃ bts, (⟨1, k, w, fl, n⟩ : EncryptionHeader).to_bytes = .ok bts ∧
      EncryptionHeader.from_bytes bts = .ok ((⟨1, k, w, fl, n⟩ : EncryptionHeader), bts.length)
  have ht := to_bytes_ok ⟨1, k, w, fl, n⟩ hk hw hn hfl
  refine ⟨_, ht, ?_⟩
  show EncryptionHeader.from_bytes (1 :: k.length :: (k
      ++ (w.length / 256 :: w.length % 256 :: (w ++ (fl :: n.length :: n)))))
    = .ok (_, (1 :: k.length :: (k ++ (w.length / 256 :: w.length % 256 :: (w
      ++ (fl :: n.length :: n))))).length)
  have hwire := from_bytes_wire k w n [] fl hk hw hn hu
  rw [List.append_nil] at hwire
  rw [show (1 :: k.length :: (k ++ (w.length / 256 :: w.length % 256 :: (w
      ++ (fl :: n.length :: n))))).length = 6 + k.length + w.length + n.length by
    simp; omega]
  exact hwire

/-- Witness for `header_round_trip` at the spec's §8 scenario
(`kek_id = "kek_v1"`, `wrapped_dek = [1,2,3,4]`, empty flags, 12-byte nonce). -/
theorem header_round_trip_witness :
    ∃ bts, (EncryptionHeader.new (strBytes "kek_v1") [1, 2, 3, 4] 0
        [5, 6, 7, 8, 9, 10, 11, 12, 13, 14, 15, 16]).to_bytes = .ok bts ∧
      EncryptionHeader.from_bytes bts
        = .ok (EncryptionHeader.new (strBytes "kek_v1") [1, 2, 3, 4] 0
            [5, 6, 7, 8, 9, 10, 11, 12, 13, 14, 15, 16], bts.length) :=
  header_round_trip _ _ _ _ (by decide) (by decide) (by decide) (by decide)
    (by decide)

/-- C9: Header parse failure taxonomy.  (1) empty input fails with
`InvalidHeader`; (2) a leading version byte other than 1 fails with
`UnsupportedVersion {version, supported = "1"}`; (3) with a valid version
byte every failure is an `InvalidHeader` (truncated field or malformed KEK-id
UTF-8); (4) success requires the declared sizes to fit within the input and
the KEK id to be valid UTF-8 — so any insufficient byte sequence fails. -/
theorem header_parse_taxonomy :
    (EncryptionHeader.from_bytes [] = .error (.InvalidHeader "Empty header data"))
    ∧ (∀ v rest, v ≠ 1 → EncryptionHeader.from_bytes (v :: rest)
        = .error (.UnsupportedVersion v "1"))
    ∧ (∀ rest e, EncryptionHeader.from_bytes (1 :: rest) = .error e →
        ∃ msg, e = .InvalidHeader msg)
    ∧ (∀ data h nc, EncryptionHeader.from_bytes data = .ok (h, nc) →
        h.version = 1 ∧ isValidUtf8 h.kekId = true
        ∧ nc = 6 + h.kekId.length + h.wrappedDek.length + h.nonce.length
        ∧ nc ≤ data.length) := by
  refine ⟨rfl, ?_, ?_, ?_⟩
  · intro v rest hv
    unfold EncryptionHeader.from_bytes
    rw [if_neg (by simp)]
    simp only [List.getD_cons_zero, PROTOCOL_VERSION]
    rw [if_pos hv]
  · intro rest e he
    unfold EncryptionHeader.from_bytes at he
    rw [if_neg (by simp)] at he
    simp only [List.getD_cons_zero, PROTOCOL_VERSION] at he
    rw [if_neg (by omega)] at he
    split at he
    · exact ⟨_, (Except.error.injEq _ _).mp he.symm⟩
    · split at he
      · exact ⟨_, (Except.error.injEq _ _).mp he.symm⟩
      · split at he
        · exact ⟨_, (Except.error.injEq _ _).mp he.symm⟩
        · split at he
          · exact ⟨_, (Except.error.injEq _ _).mp he.symm⟩
          · split at he
            · exact ⟨_, (Except.error.injEq _ _).mp he.symm⟩
            · split at he
              · exact ⟨_, (Except.error.injEq _ _).mp he.symm⟩
              · split at he
                · exact ⟨_, (Except.error.injEq _ _).mp he.symm⟩
                · split at he
                  · exact ⟨_, (Except.error.injEq _ _).mp he.symm⟩
                  · exact Except.noConfusion he
  · intro data h nc hok
    unfold EncryptionHeader.from_bytes at hok
    by_cases c0 : data.isEmpty = true
    · rw [if_pos c0] at hok
      exact Except.noConfusion hok
    · rw [if_neg c0] at hok
      by_cases c1 : data.getD 0 0 ≠ PROTOCOL_VERSION
      · rw [if_pos c1] at hok
        exact Except.noConfusion hok
      · rw [if_neg c1] at hok
        by_cases c2 : 1 ≥ data.length
        · rw [if_pos c2] at hok
          exact Except.noConfusion hok
        · rw [if_neg c2] at hok
          set kl := data.getD 1 0 with hkl
          by_cases c3 : 2 + kl > data.length
          · rw [if_pos c3] at hok
            exact Except.noConfusion hok
          · rw [if_neg c3] at hok
            by_cases c4 : ¬ isValidUtf8 ((data.drop 2).take kl) = true
            · rw [if_pos c4] at hok
              exact Except.noConfusion hok
            · rw [if_neg c4] at hok
              by_cases c5 : 2 + kl + 2 > data.length
              · rw [if_pos c5] at hok
                exact Except.noConfusion hok
              · rw [if_neg c5] at hok
                set wl := data.getD (2 + kl) 0 * 256 + data.getD (2 + kl + 1) 0
                  with hwl
                by_cases c6 : 2 + kl + 2 + wl > data.length
                · rw [if_pos c6] at hok
                  exact Except.noConfusion hok
                · rw [if_neg c6] at hok
                  by_cases c7 : 2 + kl + 2 + wl ≥ data.length
                  · rw [if_pos c7] at hok
                    exact Except.noConfusion hok
                  · rw [if_neg c7] at hok
                    by_cases c8 : 2 + kl + 2 + wl + 1 ≥ data.length
                    · rw [if_pos c8] at hok
                      exact Except.noConfusion hok
                    · rw [if_neg c8] at hok
                      set nl := data.getD (2 + kl + 2 + wl + 1) 0 with hnl
                      by_cases c9 : 2 + kl + 2 + wl + 1 + 1 + nl > data.length
                      · rw [if_pos c9] at hok
                        exact Except.noConfusion hok
                      · rw [if_neg c9] at hok
                        rw [Except.ok.injEq, Prod.mk.injEq] at hok
                        obtain ⟨hh, hnc⟩ := hok
                        subst hh
                        subst hnc
                        push_neg at c1 c4
                        refine ⟨by simpa using c1, by simpa using c4, ?_, ?_⟩
                        · simp only [List.length_take, List.length_drop]
                          omega
                        · omega

/-- Witness for `header_parse_taxonomy`: a wrong version byte, a truncated
KEK id, and the parsed §8 example header. -/
theorem header_parse_taxonomy_witness :
    (EncryptionHeader.from_bytes [99] = .error (.UnsupportedVersion 99 "1"))
    ∧ (∃ msg, Error.InvalidHeader "KEK ID truncated" = Error.InvalidHeader msg)
    ∧ ((⟨1, [107, 101, 107, 95, 118, 49], [1, 2, 3, 4], 0,
          [5, 6, 7, 8, 9, 10, 11, 12, 13, 14, 15, 16]⟩ : EncryptionHeader).version = 1
        ∧ isValidUtf8 (⟨1, [107, 101, 107, 95, 118, 49], [1, 2, 3, 4], 0,
            [5, 6, 7, 8, 9, 10, 11, 12, 13, 14, 15, 16]⟩ : EncryptionHeader).kekId = true
        ∧ 28 = 6 + (⟨1, [107, 101, 107, 95, 118, 49], [1, 2, 3, 4], 0,
            [5, 6, 7, 8, 9, 10, 11, 12, 13, 14, 15, 16]⟩ : EncryptionHeader).kekId.length
          + (⟨1, [107, 101, 107, 95, 118, 49], [1, 2, 3, 4], 0,
            [5, 6, 7, 8, 9, 10, 11, 12, 13, 14, 15, 16]⟩ : EncryptionHeader).wrappedDek.length
          + (⟨1, [107, 101, 107, 95, 118, 49], [1, 2, 3, 4], 0,
            [5, 6, 7, 8, 9, 10, 11, 12, 13, 14, 15, 16]⟩ : EncryptionHeader).nonce.length
        ∧ 28 ≤ ([1, 6, 107, 101, 107, 95, 118, 49, 0, 4, 1, 2, 3, 4, 0, 12,
            5, 6, 7, 8, 9, 10, 11, 12, 13, 14, 15, 16] : List Nat).length) :=
  ⟨header_parse_taxonomy.2.1 99 [] (by decide),
   header_parse_taxonomy.2.2.1 [6] (Error.InvalidHeader "KEK ID truncated") (by rfl),
   header_parse_taxonomy.2.2.2
     [1, 6, 107, 101, 107, 95, 118, 49, 0, 4, 1, 2, 3, 4, 0, 12,
      5, 6, 7, 8, 9, 10, 11, 12, 13, 14, 15, 16]
     ⟨1, [107, 101, 107, 95, 118, 49], [1, 2, 3, 4], 0,
      [5, 6, 7, 8, 9, 10, 11, 12, 13, 14, 15, 16]⟩ 28 (by rfl)⟩

/-- C10: if the blob's header parses but its nonce field is not exactly 12
bytes, `Vault::decrypt` (ChaCha20-Poly1305 mode) reports
`DecryptionFailed("Invalid nonce size")` before any AEAD decryption
(provided the provider unwraps the DEK to a 32-byte key, the normal case;
a provider failure or a malformed DEK surfaces as its own earlier error) —
and in every case it returns an error that is neither `AuthenticationFailed`
nor a successful plaintext. -/
theorem decrypt_nonce_size_check (cipher : AEADCipher) (p : KeyProviderOps)
    (blob : List Nat) (ctx : EncryptionContext) (h : EncryptionHeader) (hl : Nat)
    (hparse : EncryptionHeader.from_bytes blob = .ok (h, hl))
    (hnonce : h.nonce.length ≠ NONCE_SIZE) :
    (∀ dek, p.unwrapDek h.kekId h.wrappedDek = .ok dek → dek.length = 32 →
      Vault.decrypt cipher ⟨p, .chaCha20Poly1305⟩ blob ctx
        = .error (.DecryptionFailed "Invalid nonce size"))
    ∧ (∀ pt, Vault.decrypt cipher ⟨p, .chaCha20Poly1305⟩ blob ctx ≠ .ok pt)
    ∧ Vault.decrypt cipher ⟨p, .chaCha20Poly1305⟩ blob ctx
        ≠ .error .AuthenticationFailed := by
  unfold Vault.decrypt
  rw [hparse]
  dsimp only []
  cases hu : p.unwrapDek h.kekId h.wrappedDek with
  | error e =>
    dsimp only []
    refine ⟨?_, ?_, ?_⟩
    · intro dek hdek _
      exact Except.noConfusion hdek
    · intro pt hpt
      exact Except.noConfusion hpt
    · intro hpt
      rw [Except.error.injEq] at hpt
      exact Error.noConfusion hpt
  | ok dek =>
    dsimp only []
    by_cases hd : dek.length = 32
    · rw [if_pos hd, if_neg hnonce]
      refine ⟨fun _ _ _ => rfl, ?_, ?_⟩
      · intro pt hpt
        exact Except.noConfusion hpt
      · intro hpt
        rw [Except.error.injEq] at hpt
        exact Error.noConfusion hpt
    · rw [if_neg hd]
      refine ⟨?_, ?_, ?_⟩
      · intro dek' hdek' hlen'
        rw [Except.ok.injEq] at hdek'
        subst hdek'
        exact absurd hlen' hd
      · intro pt hpt
        exact Except.noConfusion hpt
      · intro hpt
        rw [Except.error.injEq] at hpt
        exact Error.noConfusion hpt

/-- Witness for `decrypt_nonce_size_check`: a blob with an 11-byte nonce. -/
theorem decrypt_nonce_size_check_witness :
    Vault.decrypt tagCipher
      ⟨⟨.ok [107], fun _ d => .ok d, fun _ _ => .ok (List.replicate 32 7)⟩,
        .chaCha20Poly1305⟩
      [1, 1, 107, 0, 1, 9, 0, 11, 0, 0, 0, 0, 0, 0, 0, 0, 0, 0, 0] ctxNone
      = .error (.DecryptionFailed "Invalid nonce size") :=
  (decrypt_nonce_size_check tagCipher
    ⟨.ok [107], fun _ d => .ok d, fun _ _ => .ok (List.replicate 32 7)⟩
    [1, 1, 107, 0, 1, 9, 0, 11, 0, 0, 0, 0, 0, 0, 0, 0, 0, 0, 0] ctxNone
    ⟨1, [107], [9], 0, [0, 0, 0, 0, 0, 0, 0, 0, 0, 0, 0]⟩ 19 (by rfl)
    (by decide)).1 (List.replicate 32 7) (by rfl) (by decide)

/-- C8: `DeterministicVault::new(key)` succeeds exactly when the key is
64 bytes; any other length fails with `InvalidKeyLength{expected: 64,
actual: key.len()}`. -/
theorem deterministic_new_key_length (key : List Nat) :
    (key.length = 64 → DeterministicVault.new key = .ok ⟨key⟩)
    ∧ (key.length ≠ 64 →
        DeterministicVault.new key = .error (.InvalidKeyLength 64 key.length)) := by
  constructor
  · intro h64
    unfold DeterministicVault.new
    rw [if_neg (by omega)]
  · intro hne
    unfold DeterministicVault.new
    rw [if_pos hne]

/-- Witness for `deterministic_new_key_length`: a 64-byte key is accepted,
a 32-byte key is rejected with `InvalidKeyLength 64 32`. -/
theorem deterministic_new_key_length_witness :
    DeterministicVault.new (List.replicate 64 66) = .ok ⟨List.replicate 64 66⟩
    ∧ DeterministicVault.new (List.replicate 32 66)
        = .error (.InvalidKeyLength 64 (List.replicate 32 66).length) :=
  ⟨(deterministic_new_key_length (List.replicate 64 66)).1 (by decide),
   (deterministic_new_key_length (List.replicate 32 66)).2 (by decide)⟩

/-- SHA-256 digests are 32 bytes. -/
theorem sha256_length (msg : List Nat) : (sha256 msg).length = 32 := by
  simp [sha256, word32Bytes]

/-- HMAC-SHA256 tags are 32 bytes. -/
theorem hmacSha256_length (key msg : List Nat) : (hmacSha256 key msg).length = 32 := by
  unfold hmacSha256
  exact sha256_length _

/-- C6: `generate_blind_index` fails with `IndexGenerationFailed` when the
provider has no pepper, and with a pepper returns exactly the first 16 bytes
of HMAC-SHA256 keyed by the pepper over `value || context.canonical_string()`
— a pure (hence deterministic) function of those inputs — always 16 bytes
long. -/
theorem blind_index_spec (getPepper : Except KeyProviderError (Option (List Nat)))
    (value : List Nat) (context : IndexContext) :
    (getPepper = .ok none →
      generate_blind_index getPepper value context
        = .error (.IndexGenerationFailed "Pepper not available"))
    ∧ (∀ pepper, getPepper = .ok (some pepper) →
        generate_blind_index getPepper value context
          = .ok ((hmacSha256 pepper (value ++ strBytes (ictxString context))).take 16)
        ∧ ∃ idx, generate_blind_index getPepper value context = .ok idx
            ∧ idx.length = 16) := by
  constructor
  · intro hp
    subst hp
    rfl
  · intro pepper hp
    subst hp
    refine ⟨rfl, _, rfl, ?_⟩
    simp [List.length_take, hmacSha256_length, BLIND_INDEX_SIZE]

/-- Witness for `blind_index_spec`: a pepper-less provider fails, the mock
pepper of `blind_index.rs`'s tests yields the 16-byte HMAC prefix. -/
theorem blind_index_spec_witness :
    generate_blind_index (.ok none) (strBytes "alice@example.com")
        (IndexContext.new "users" "email")
      = .error (.IndexGenerationFailed "Pepper not available")
    ∧ (generate_blind_index (.ok (some (List.replicate 32 42)))
          (strBytes "alice@example.com") (IndexContext.new "users" "email")
        = .ok ((hmacSha256 (List.replicate 32 42)
            (strBytes "alice@example.com"
              ++ strBytes (ictxString (IndexContext.new "users" "email")))).take 16)
        ∧ ∃ idx, generate_blind_index (.ok (some (List.replicate 32 42)))
            (strBytes "alice@example.com") (IndexContext.new "users" "email")
            = .ok idx ∧ idx.length = 16) :=
  ⟨(blind_index_spec (.ok none) (strBytes "alice@example.com")
      (IndexContext.new "users" "email")).1 rfl,
   (blind_index_spec (.ok (some (List.replicate 32 42)))
      (strBytes "alice@example.com") (IndexContext.new "users" "email")).2
     (List.replicate 32 42) rfl⟩

/-! ## Vault lemmas -/

/-- With a working provider and a 32-byte DEK, `Vault::encrypt` produces the
serialized header followed by the AEAD ciphertext. -/
theorem vault_encrypt_ok (cipher : AEADCipher) (p : KeyProviderOps)
    (dek nonce pt : List Nat) (ctx : EncryptionContext) (kekId wrapped : List Nat)
    (hkid : p.currentKekId = .ok kekId) (hwrap : p.wrapDek kekId dek = .ok wrapped)
    (hdek : dek.length = 32) (hk : kekId.length ≤ 255)
    (hw : wrapped.length ≤ 65535) (hn : nonce.length ≤ 255) :
    Vault.encrypt cipher ⟨p, .chaCha20Poly1305⟩ dek nonce pt ctx
      = .ok ((1 :: kekId.length :: (kekId
          ++ (wrapped.length / 256 :: wrapped.length % 256 :: (wrapped
          ++ (0 :: nonce.length :: nonce)))))
        ++ cipher.enc dek nonce (strBytes (ectxString ctx)) pt) := by
  unfold Vault.encrypt
  rw [hkid]
  dsimp only []
  rw [hwrap]
  dsimp only []
  rw [if_pos hdek]
  rw [show EncryptionHeader.new kekId wrapped 0 nonce
      = (⟨1, kekId, wrapped, 0, nonce⟩ : EncryptionHeader) from rfl]
  rw [to_bytes_ok ⟨1, kekId, wrapped, 0, nonce⟩ hk hw hn (by show (0:Nat) < 256; omega)]

/-- Decrypting a well-formed blob (header wire format followed by AEAD
ciphertext) with a provider that unwraps the DEK reduces to the AEAD
decryption of the payload under the caller-supplied context string. -/
theorem vault_decrypt_ok (cipher : AEADCipher) (p : KeyProviderOps)
    (kekId wrapped dek nonce ct : List Nat) (ctx : EncryptionContext)
    (hk : kekId.length ≤ 255) (hu8 : isValidUtf8 kekId = true)
    (hw : wrapped.length ≤ 65535) (hnonce : nonce.length = 12)
    (hunwrap : p.unwrapDek kekId wrapped = .ok dek) (hdek : dek.length = 32) :
    Vault.decrypt cipher ⟨p, .chaCha20Poly1305⟩
      ((1 :: kekId.length :: (kekId
          ++ (wrapped.length / 256 :: wrapped.length % 256 :: (wrapped
          ++ (0 :: nonce.length :: nonce)))))
        ++ ct) ctx
      = match cipher.dec dek nonce (strBytes (ectxString ctx)) ct with
        | none => .error .AuthenticationFailed
        | some pt => .ok pt := by
  unfold Vault.decrypt
  rw [show (1 :: kekId.length :: (kekId
          ++ (wrapped.length / 256 :: wrapped.length % 256 :: (wrapped
          ++ (0 :: nonce.length :: nonce)))))
        ++ ct
      = 1 :: kekId.length :: (kekId
          ++ (wrapped.length / 256 :: wrapped.length % 256 :: (wrapped
          ++ (0 :: nonce.length :: (nonce ++ ct))))) by simp]
  rw [from_bytes_wire kekId wrapped nonce ct 0 hk hw (by omega) hu8]
  dsimp only []
  rw [hunwrap]
  dsimp only []
  rw [if_pos hdek, if_pos (show nonce.length = NONCE_SIZE from hnonce)]
  have hdrop : (1 :: kekId.length :: (kekId
      ++ (wrapped.length / 256 :: wrapped.length % 256 :: (wrapped
      ++ (0 :: nonce.length :: (nonce ++ ct)))))).drop
        (6 + kekId.length + wrapped.length + nonce.length) = ct := by
    rw [show 1 :: kekId.length :: (kekId
        ++ (wrapped.length / 256 :: wrapped.length % 256 :: (wrapped
        ++ (0 :: nonce.length :: (nonce ++ ct)))))
      = ([1, kekId.length] ++ kekId
          ++ [wrapped.length / 256, wrapped.length % 256] ++ wrapped
          ++ [0, nonce.length] ++ nonce) ++ ct by simp]
    rw [show 6 + kekId.length + wrapped.length + nonce.length
      = ([1, kekId.length] ++ kekId
          ++ [wrapped.length / 256, wrapped.length % 256] ++ wrapped
          ++ [0, nonce.length] ++ nonce : List Nat).length by simp; omega]
    exact drop_after _ _
  rw [hdrop]

/-- C1: Round trip.  Envelope path: decrypting a blob produced by
`Vault::encrypt` with the same context on the same vault returns the
plaintext, assuming the provider's `unwrap_dek` inverts its `wrap_dek`
(and the provider's KEK id fits the header, as any real id does), and the
AEAD primitive inverts itself on these inputs (guaranteed for
ChaCha20-Poly1305).  Deterministic path: `DeterministicVault::decrypt`
inverts `DeterministicVault::encrypt` under the same 64-byte key, assuming
the SIV primitive inverts itself on these inputs (guaranteed for
AES-256-SIV). -/
theorem encrypt_decrypt_round_trip :
    (∀ (cipher : AEADCipher) (p : KeyProviderOps)
      (dek nonce pt : List Nat) (ctx : EncryptionContext)
      (kekId wrapped blob : List Nat),
      p.currentKekId = .ok kekId → isValidUtf8 kekId = true →
      kekId.length ≤ 255 →
      p.wrapDek kekId dek = .ok wrapped → wrapped.length ≤ 65535 →
      p.unwrapDek kekId wrapped = .ok dek →
      dek.length = 32 → nonce.length = 12 →
      cipher.dec dek nonce (strBytes (ectxString ctx))
        (cipher.enc dek nonce (strBytes (ectxString ctx)) pt) = some pt →
      Vault.encrypt cipher ⟨p, .chaCha20Poly1305⟩ dek nonce pt ctx = .ok blob →
      Vault.decrypt cipher ⟨p, .chaCha20Poly1305⟩ blob ctx = .ok pt)
    ∧ (∀ (siv : AEADCipher) (key pt : List Nat) (ctx : EncryptionContext)
        (v : DeterministicVault),
        DeterministicVault.new key = .ok v →
        siv.dec key sivZeroNonce (strBytes (ectxString ctx))
          (siv.enc key sivZeroNonce (strBytes (ectxString ctx)) pt) = some pt →
        ∃ ct, DeterministicVault.encrypt siv v pt ctx = .ok ct
          ∧ DeterministicVault.decrypt siv v ct ctx = .ok pt) := by
  constructor
  · intro cipher p dek nonce pt ctx kekId wrapped blob
      hkid hu8 hk hwrap hw hunwrap hdek hnonce hcipher henc
    rw [vault_encrypt_ok cipher p dek nonce pt ctx kekId wrapped hkid hwrap hdek
      hk hw (by omega), Except.ok.injEq] at henc
    subst henc
    rw [vault_decrypt_ok cipher p kekId wrapped dek nonce _ ctx hk hu8 hw hnonce
      hunwrap hdek]
    rw [hcipher]
  · intro siv key pt ctx v hnew hsiv
    unfold DeterministicVault.new at hnew
    by_cases h64 : key.length ≠ 64
    · rw [if_pos h64] at hnew
      exact Except.noConfusion hnew
    · rw [if_neg h64] at hnew
      push_neg at h64
      rw [Except.ok.injEq] at hnew
      subst hnew
      refine ⟨siv.enc key sivZeroNonce (strBytes (ectxString ctx)) pt, ?_, ?_⟩
      · unfold DeterministicVault.encrypt
        rw [if_pos (show (⟨key⟩ : DeterministicVault).key.length = 64 from h64)]
      · unfold DeterministicVault.decrypt
        rw [if_pos (show (⟨key⟩ : DeterministicVault).key.length = 64 from h64)]
        dsimp only []
        rw [hsiv]

/-- Witness for `encrypt_decrypt_round_trip`: the identity-wrap provider,
a concrete 32-byte DEK, 12-byte nonce and plaintext on the envelope path,
and a 64-byte key on the deterministic path. -/
theorem encrypt_decrypt_round_trip_witness :
    Vault.decrypt tagCipher ⟨idProvider, .chaCha20Poly1305⟩
      ((1 :: (strBytes "test_kek").length :: (strBytes "test_kek"
          ++ ((List.replicate 32 7).length / 256
            :: (List.replicate 32 7).length % 256 :: (List.replicate 32 7
          ++ (0 :: (List.replicate 12 9).length :: List.replicate 12 9)))))
        ++ tagCipher.enc (List.replicate 32 7) (List.replicate 12 9)
            (strBytes (ectxString ctxNone)) (strBytes "alice@example.com"))
      ctxNone = .ok (strBytes "alice@example.com")
    ∧ ∃ ct, DeterministicVault.encrypt tagCipher ⟨List.replicate 64 3⟩
          (strBytes "alice@example.com") ctxNone = .ok ct
        ∧ DeterministicVault.decrypt tagCipher ⟨List.replicate 64 3⟩ ct ctxNone
          = .ok (strBytes "alice@example.com") :=
  ⟨encrypt_decrypt_round_trip.1 tagCipher idProvider (List.replicate 32 7)
      (List.replicate 12 9) (strBytes "alice@example.com") ctxNone
      (strBytes "test_kek") (List.replicate 32 7) _
      rfl (by decide) (by decide) rfl (by decide) rfl (by decide) (by decide)
      (by decide) rfl,
   encrypt_decrypt_round_trip.2 tagCipher (List.replicate 64 3)
      (strBytes "alice@example.com") ctxNone ⟨List.replicate 64 3⟩
      rfl (by decide)⟩

/-- Counterexample to C2 as stated: the contexts `ctxNone` (tenant `None`)
and `ctxDefault` (tenant `Some "default")`) differ in the tenant field, yet
a blob encrypted under `ctxNone` decrypts SUCCESSFULLY under `ctxDefault`,
because both render to the canonical string `"default|users|email|v1"` used
as AEAD associated data. -/
theorem wrong_context_counterexample :
    ctxNone ≠ ctxDefault
    ∧ Vault.encrypt tagCipher ⟨idProvider, .chaCha20Poly1305⟩
        (List.replicate 32 7) (List.replicate 12 9)
        (strBytes "alice@example.com") ctxNone
      = .ok ((1 :: (strBytes "test_kek").length :: (strBytes "test_kek"
          ++ ((List.replicate 32 7).length / 256
            :: (List.replicate 32 7).length % 256 :: (List.replicate 32 7
          ++ (0 :: (List.replicate 12 9).length :: List.replicate 12 9)))))
        ++ tagCipher.enc (List.replicate 32 7) (List.replicate 12 9)
            (strBytes (ectxString ctxNone)) (strBytes "alice@example.com"))
    ∧ Vault.decrypt tagCipher ⟨idProvider, .chaCha20Poly1305⟩
        ((1 :: (strBytes "test_kek").length :: (strBytes "test_kek"
          ++ ((List.replicate 32 7).length / 256
            :: (List.replicate 32 7).length % 256 :: (List.replicate 32 7
          ++ (0 :: (List.replicate 12 9).length :: List.replicate 12 9)))))
        ++ tagCipher.enc (List.replicate 32 7) (List.replicate 12 9)
            (strBytes (ectxString ctxNone)) (strBytes "alice@example.com"))
        ctxDefault
      = .ok (strBytes "alice@example.com") :=
  ⟨by decide, by rfl, by rfl⟩

/-- C2 amended: for contexts whose canonical strings differ (contexts
differing in any field, except that tenant `None` and tenant
`Some "default"` collide), decrypting under the wrong context fails with
`AuthenticationFailed` — never a wrong-but-successful plaintext — because
the AEAD associated data is the caller-supplied context's canonical string
and the AEAD rejects a mismatched associated data (guaranteed, up to
forgery, for ChaCha20-Poly1305; taken as a hypothesis on the cipher at the
relevant input). -/
theorem wrong_context_auth_failure (cipher : AEADCipher) (p : KeyProviderOps)
    (dek nonce pt : List Nat) (ctx1 ctx2 : EncryptionContext)
    (kekId wrapped blob : List Nat)
    (_hcanon : ectxString ctx1 ≠ ectxString ctx2)
    (hkid : p.currentKekId = .ok kekId) (hu8 : isValidUtf8 kekId = true)
    (hk : kekId.length ≤ 255)
    (hwrap : p.wrapDek kekId dek = .ok wrapped) (hw : wrapped.length ≤ 65535)
    (hunwrap : p.unwrapDek kekId wrapped = .ok dek)
    (hdek : dek.length = 32) (hnonce : nonce.length = 12)
    (hcipher : cipher.dec dek nonce (strBytes (ectxString ctx2))
      (cipher.enc dek nonce (strBytes (ectxString ctx1)) pt) = none)
    (henc : Vault.encrypt cipher ⟨p, .chaCha20Poly1305⟩ dek nonce pt ctx1
      = .ok blob) :
    Vault.decrypt cipher ⟨p, .chaCha20Poly1305⟩ blob ctx2
      = .error .AuthenticationFailed := by
  rw [vault_encrypt_ok cipher p dek nonce pt ctx1 kekId wrapped hkid hwrap hdek
    hk hw (by omega), Except.ok.injEq] at henc
  subst henc
  rw [vault_decrypt_ok cipher p kekId wrapped dek nonce _ ctx2 hk hu8 hw hnonce
    hunwrap hdek]
  rw [hcipher]

/-- Witness for `wrong_context_auth_failure`: encrypting under
`users/email` and decrypting under `users/name` authenticates the wrong
canonical string and fails. -/
theorem wrong_context_auth_failure_witness :
    Vault.decrypt tagCipher ⟨idProvider, .chaCha20Poly1305⟩
      ((1 :: (strBytes "test_kek").length :: (strBytes "test_kek"
          ++ ((List.replicate 32 7).length / 256
            :: (List.replicate 32 7).length % 256 :: (List.replicate 32 7
          ++ (0 :: (List.replicate 12 9).length :: List.replicate 12 9)))))
        ++ tagCipher.enc (List.replicate 32 7) (List.replicate 12 9)
            (strBytes (ectxString ctxNone)) (strBytes "alice@example.com"))
      (EncryptionContext.new "users" "name")
      = .error .AuthenticationFailed :=
  wrong_context_auth_failure tagCipher idProvider (List.replicate 32 7)
    (List.replicate 12 9) (strBytes "alice@example.com") ctxNone
    (EncryptionContext.new "users" "name") (strBytes "test_kek")
    (List.replicate 32 7) _ (by decide) rfl (by decide) (by decide) rfl
    (by decide) rfl (by decide) (by decide) (by decide) rfl

/-! ## Canonical-string injectivity machinery -/

/-- Splitting at the first delimiter is unambiguous when neither prefix
contains it. -/
theorem pipe_split (a : List Char) : ∀ (b rest rest' : List Char),
    '|' ∉ a → '|' ∉ b → a ++ '|' :: rest = b ++ '|' :: rest' →
    a = b ∧ rest = rest' := by
  induction a with
  | nil =>
    intro b rest rest' _ hb h
    cases b with
    | nil => simpa using h
    | cons y ys =>
      simp only [List.nil_append, List.cons_append, List.cons.injEq] at h
      exact absurd (h.1 ▸ List.mem_cons_self y ys) (h.1 ▸ hb)
  | cons x xs ih =>
    intro b rest rest' ha hb h
    cases b with
    | nil =>
      simp only [List.cons_append, List.nil_append, List.cons.injEq] at h
      exact absurd (h.1 ▸ List.mem_cons_self x xs) (h.1 ▸ ha)
    | cons y ys =>
      simp only [List.cons_append, List.cons.injEq] at h
      obtain ⟨hxy, htail⟩ := h
      have := ih ys rest rest' (fun hm => ha (List.mem_cons_of_mem x hm))
        (fun hm => hb (List.mem_cons_of_mem y hm)) htail
      exact ⟨by rw [hxy, this.1], this.2⟩

/-- The decimal renderer's accumulator is a suffix. -/
theorem natDecimalGo_acc (fuel : Nat) : ∀ (n : Nat) (acc : List Char),
    natDecimalGo fuel n acc = natDecimalGo fuel n [] ++ acc := by
  induction fuel with
  | zero => intro n acc; rfl
  | succ fuel ih =>
    intro n acc
    by_cases h : n < 10
    · simp [natDecimalGo, h]
    · simp only [natDecimalGo, if_neg h]
      rw [ih (n / 10) (decChar (n % 10) :: acc), ih (n / 10) [decChar (n % 10)]]
      simp

/-- Decimal digit characters decode to their value. -/
theorem decChar_toNat (d : Nat) (h : d < 10) : (decChar d).toNat = 48 + d := by
  interval_cases d <;> rfl

/-- Rendering then valuing a number is the identity (for sufficient fuel). -/
theorem digitsVal_natDecimalGo (fuel : Nat) : ∀ n, n < 10 ^ (fuel + 1) →
    digitsVal (natDecimalGo fuel n []) = n := by
  induction fuel with
  | zero =>
    intro n h
    have h10 : n < 10 := by simpa using h
    simp [natDecimalGo, digitsVal, decChar_toNat n h10]
  | succ fuel ih =>
    intro n h
    by_cases h10 : n < 10
    · simp [natDecimalGo, if_pos h10, digitsVal, decChar_toNat n h10]
    · simp only [natDecimalGo, if_neg h10]
      rw [natDecimalGo_acc fuel (n / 10) [decChar (n % 10)]]
      have hdiv : n / 10 < 10 ^ (fuel + 1) := by
        rw [Nat.div_lt_iff_lt_mul (by omega)]
        calc n < 10 ^ (fuel + 1 + 1) := h
        _ = 10 ^ (fuel + 1) * 10 := by ring
      have hvd := ih (n / 10) hdiv
      simp only [digitsVal, List.foldl_append] at hvd ⊢
      rw [hvd]
      simp only [List.foldl_cons, List.foldl_nil]
      rw [decChar_toNat (n % 10) (by omega)]
      omega

/-- The decimal rendering of natural numbers is injective. -/
theorem natDecimal_inj (m n : Nat) (h : natDecimal m = natDecimal n) : m = n := by
  have hm := digitsVal_natDecimalGo m m
    (lt_of_lt_of_le (Nat.lt_pow_self (by omega) m) (Nat.pow_le_pow_right (by omega) (by omega)))
  have hn := digitsVal_natDecimalGo n n
    (lt_of_lt_of_le (Nat.lt_pow_self (by omega) n) (Nat.pow_le_pow_right (by omega) (by omega)))
  unfold natDecimal at h
  rw [← hm, ← hn, h]

/-- Character-level decomposition of the canonical string. -/
theorem ectxString_data (c : EncryptionContext) :
    (ectxString c).data = (c.tenantId.getD "default").data
      ++ '|' :: (c.tableName.data
      ++ '|' :: (c.columnName.data
      ++ '|' :: 'v' :: natDecimal c.version)) := by
  simp [ectxString, natStr, String.data_append]

/-- `noPipe` unpacked. -/
theorem noPipe_not_mem (s : String) (h : noPipe s = true) : '|' ∉ s.data := by
  simpa [noPipe] using h

/-- Counterexample to C4 as stated: `ctxNone` (tenant `None`) and
`ctxDefault` (tenant `Some "default"`) differ in the tenant field, no field
contains `'|'`, yet their canonical strings coincide. -/
theorem canonical_collision_counterexample :
    ctxNone ≠ ctxDefault
    ∧ noPipe "users" = true ∧ noPipe "email" = true ∧ noPipe "default" = true
    ∧ ectxString ctxNone = ectxString ctxDefault := by
  refine ⟨by decide, by decide, by decide, by decide, by decide⟩

/-- C4 amended: canonical strings of two contexts differ whenever the
contexts differ, provided no field contains the `'|'` delimiter AND the two
tenants are not the colliding pair `None` / `Some "default"` (which both
render as `"default"`). -/
theorem canonical_string_injective (c1 c2 : EncryptionContext)
    (h1t : noPipe (c1.tenantId.getD "default") = true)
    (h1a : noPipe c1.tableName = true) (h1b : noPipe c1.columnName = true)
    (h2t : noPipe (c2.tenantId.getD "default") = true)
    (h2a : noPipe c2.tableName = true) (h2b : noPipe c2.columnName = true)
    (halias : ¬ ((c1.tenantId = none ∧ c2.tenantId = some "default")
      ∨ (c1.tenantId = some "default" ∧ c2.tenantId = none)))
    (hne : c1 ≠ c2) : ectxString c1 ≠ ectxString c2 := by
  intro heq
  apply hne
  have hdata : (ectxString c1).data = (ectxString c2).data := by rw [heq]
  rw [ectxString_data, ectxString_data] at hdata
  obtain ⟨ht, hdata⟩ := pipe_split _ _ _ _
    (noPipe_not_mem _ h1t) (noPipe_not_mem _ h2t) hdata
  obtain ⟨htab, hdata⟩ := pipe_split _ _ _ _
    (noPipe_not_mem _ h1a) (noPipe_not_mem _ h2a) hdata
  obtain ⟨hcol, hdata⟩ := pipe_split _ _ _ _
    (noPipe_not_mem _ h1b) (noPipe_not_mem _ h2b) hdata
  simp only [List.cons.injEq, true_and] at hdata
  have hver : c1.version = c2.version := natDecimal_inj _ _ hdata
  have htenant : c1.tenantId = c2.tenantId := by
    have hts : c1.tenantId.getD "default" = c2.tenantId.getD "default" :=
      String.ext ht
    cases e1 : c1.tenantId with
    | none =>
      cases e2 : c2.tenantId with
      | none => rfl
      | some b =>
        rw [e1, e2] at hts
        simp only [Option.getD_some, Option.getD_none] at hts
        exact absurd (Or.inl ⟨e1, by rw [e2, hts]⟩) halias
    | some a =>
      cases e2 : c2.tenantId with
      | none =>
        rw [e1, e2] at hts
        simp only [Option.getD_some, Option.getD_none] at hts
        exact absurd (Or.inr ⟨by rw [e1, hts], e2⟩) halias
      | some b =>
        rw [e1, e2] at hts
        simp only [Option.getD_some] at hts
        rw [hts]
  cases c1
  cases c2
  simp only [EncryptionContext.mk.injEq]
  exact ⟨htenant, String.ext htab, String.ext hcol, hver⟩

/-- Witness for `canonical_string_injective`: two contexts differing only in
the column name have distinct canonical strings. -/
theorem canonical_string_injective_witness :
    ectxString (EncryptionContext.new "users" "email")
      ≠ ectxString (EncryptionContext.new "users" "name") :=
  canonical_string_injective (EncryptionContext.new "users" "email")
    (EncryptionContext.new "users" "name") (by decide) (by decide) (by decide)
    (by decide) (by decide) (by decide) (by decide) (by decide)

/-- Counterexample to C7 as stated: changing the tenant field from `None`
to `Some "default"` does NOT change the deterministic ciphertext, because
both contexts render to the same canonical string. -/
theorem deterministic_context_counterexample :
    ctxNone ≠ ctxDefault
    ∧ DeterministicVault.encrypt tagCipher ⟨List.replicate 64 3⟩
        (strBytes "alice@example.com") ctxNone
      = DeterministicVault.encrypt tagCipher ⟨List.replicate 64 3⟩
        (strBytes "alice@example.com") ctxDefault :=
  ⟨by decide, by rfl⟩

/-- C7 amended: `DeterministicVault::encrypt` is a pure function of the key,
the plaintext and the context's canonical string — two calls on vaults
holding the same key are byte-identical, and contexts with equal canonical
strings give identical output; changing a context field changes the output
only when the canonical string changes (tenant `None` and `Some "default"`
collide) and the SIV primitive separates the two associated-data values
(guaranteed, up to collision, for AES-256-SIV; taken as a hypothesis at the
relevant input). -/
theorem deterministic_purity (siv : AEADCipher) :
    (∀ (v1 v2 : DeterministicVault) (pt : List Nat) (c : EncryptionContext),
      v1.key = v2.key →
      DeterministicVault.encrypt siv v1 pt c
        = DeterministicVault.encrypt siv v2 pt c)
    ∧ (∀ (v : DeterministicVault) (pt : List Nat) (c1 c2 : EncryptionContext),
      ectxString c1 = ectxString c2 →
      DeterministicVault.encrypt siv v pt c1
        = DeterministicVault.encrypt siv v pt c2)
    ∧ (∀ (v : DeterministicVault) (pt : List Nat) (c1 c2 : EncryptionContext),
      v.key.length = 64 →
      siv.enc v.key sivZeroNonce (strBytes (ectxString c1)) pt
        ≠ siv.enc v.key sivZeroNonce (strBytes (ectxString c2)) pt →
      DeterministicVault.encrypt siv v pt c1
        ≠ DeterministicVault.encrypt siv v pt c2) := by
  refine ⟨?_, ?_, ?_⟩
  · intro v1 v2 pt c h
    simp [DeterministicVault.encrypt, h]
  · intro v pt c1 c2 h
    unfold DeterministicVault.encrypt
    rw [h]
  · intro v pt c1 c2 h64 hne heq
    unfold DeterministicVault.encrypt at heq
    rw [if_pos h64, if_pos h64, Except.ok.injEq] at heq
    exact hne heq

/-- Witness for `deterministic_purity`: equal canonical strings give equal
ciphertexts; distinct canonical strings give distinct ciphertexts under the
witness cipher. -/
theorem deterministic_purity_witness :
    DeterministicVault.encrypt tagCipher ⟨List.replicate 64 3⟩ (strBytes "x")
        ctxNone
      = DeterministicVault.encrypt tagCipher ⟨List.replicate 64 3⟩ (strBytes "x")
        ctxDefault
    ∧ DeterministicVault.encrypt tagCipher ⟨List.replicate 64 3⟩ (strBytes "x")
        (EncryptionContext.new "users" "email")
      ≠ DeterministicVault.encrypt tagCipher ⟨List.replicate 64 3⟩ (strBytes "x")
        (EncryptionContext.new "users" "name") :=
  ⟨(deterministic_purity tagCipher).2.1 ⟨List.replicate 64 3⟩ (strBytes "x")
      ctxNone ctxDefault (by decide),
   (deterministic_purity tagCipher).2.2 ⟨List.replicate 64 3⟩ (strBytes "x")
      (EncryptionContext.new "users" "email") (EncryptionContext.new "users" "name")
      (by decide) (by decide)⟩

/-- Each HKDF-Expand block is 32 bytes. -/
theorem hkdfGo_fst_length (prk info : List Nat) :
    ∀ n, (hkdfGo prk info n).1.length = 32 * n := by
  intro n
  induction n with
  | zero => rfl
  | succ n ih =>
    simp only [hkdfGo, List.length_append, ih, hmacSha256_length]
    omega

/-- Counterexample to C5 as stated.  First: changing the tenant field from
`None` to `Some "default"` does NOT change the derived DEK (equal canonical
strings).  Second: `derive_dek` does NOT equal HKDF-Expand with the KEK
itself as the pseudorandom key — `Hkdf::new(None, kek)` first performs
HKDF-Extract with the default zero salt — exhibited at the spec's §8
concrete KEK and context, where the two constructions give different
32-byte outputs. -/
theorem derive_dek_counterexample :
    (ctxNone ≠ ctxDefault
      ∧ derive_dek kekOnes ctxNone = derive_dek kekOnes ctxDefault)
    ∧ ((specDeriveDek kekOnes (ctxSpec 1)).isSome = true
      ∧ derive_dek kekOnes (ctxSpec 1)
          ≠ .ok ((specDeriveDek kekOnes (ctxSpec 1)).getD [])) := by
  refine ⟨⟨by decide, ?_⟩, by decide, by decide⟩
  unfold derive_dek
  rw [show ectxString ctxNone = ectxString ctxDefault from by decide]

/-- C5 amended: `derive_dek(kek, context)` always succeeds with a 32-byte
secret, computed by HKDF-Extract with the RFC 5869 default zero salt over
the KEK followed by HKDF-Expand with the context's canonical string as
`info`; it is a pure (hence deterministic) function of `(kek, context)`
depending on the context only through its canonical string (so tenant
`None` and `Some "default"` yield the same DEK); at the spec's §8 concrete
scenario, changing the version from 1 to 2 changes the output. -/
theorem derive_dek_spec :
    (∀ (kek : List Nat) (ctx : EncryptionContext),
      ∃ d, derive_dek kek ctx = .ok d ∧ d.length = 32)
    ∧ (∀ (kek : List Nat) (c1 c2 : EncryptionContext),
      ectxString c1 = ectxString c2 → derive_dek kek c1 = derive_dek kek c2)
    ∧ derive_dek kekOnes (ctxSpec 1) ≠ derive_dek kekOnes (ctxSpec 2) := by
  refine ⟨?_, ?_, by decide⟩
  · intro kek ctx
    refine ⟨(hkdfGo (hkdfExtract (List.replicate 32 0) kek)
        (strBytes (ectxString ctx)) 1).1.take 32, rfl, ?_⟩
    simp [List.length_take, hkdfGo_fst_length]
  · intro kek c1 c2 h
    unfold derive_dek
    rw [h]

/-- Witness for `derive_dek_spec`: a concrete derivation succeeds with 32
bytes, and the colliding tenant pair derives identical DEKs. -/
theorem derive_dek_spec_witness :
    (∃ d, derive_dek kekOnes ctxNone = .ok d ∧ d.length = 32)
    ∧ derive_dek kekOnes ctxNone = derive_dek kekOnes ctxDefault :=
  ⟨derive_dek_spec.1 kekOnes ctxNone,
   derive_dek_spec.2.1 kekOnes ctxNone ctxDefault (by decide)⟩

/-! ## Embedding fidelity anchors

These mirror unit tests in the repository and pin the concrete primitives to
their published test vectors. -/

/-- FIPS 180-4 test vector: SHA-256 of `"abc"`. -/
theorem sha256_abc_vector :
    sha256 (strBytes "abc") =
      [186, 120, 22, 191, 143, 1, 207, 234, 65, 65, 64, 222, 93, 174, 34, 35,
       176, 3, 97, 163, 150, 23, 122, 156, 180, 16, 255, 97, 242, 0, 21, 173] := by
  decide

/-- RFC 5869 Appendix A.1 Test Case 1, exactly as checked by
`kdf.rs`'s `test_hkdf_rfc5869_test_case_1`. -/
theorem hkdf_rfc5869_test_case_1 :
    hkdfExpand (hkdfExtract [0, 1, 2, 3, 4, 5, 6, 7, 8, 9, 10, 11, 12]
        (List.replicate 22 11))
      [240, 241, 242, 243, 244, 245, 246, 247, 248, 249] 42 =
    some [60, 178, 95, 37, 250, 172, 213, 122, 144, 67, 79, 100, 208, 54,
      47, 42, 45, 45, 10, 144, 207, 26, 90, 76, 93, 176, 45, 86, 236, 196,
      197, 191, 52, 0, 114, 8, 213, 184, 135, 24, 88, 101] := by
  decide

/-- The canonical-string examples checked by `context.rs`'s tests. -/
theorem context_display_examples :
    ectxString ⟨some "tenant_123", "users", "email", 2⟩ = "tenant_123|users|email|v2"
    ∧ ectxString (EncryptionContext.new "users" "email") = "default|users|email|v1"
    ∧ ictxString ((IndexContext.new "users" "email").with_tenant "tenant_123")
        = "tenant_123|users|email" := by
  refine ⟨by decide, by decide, by decide⟩
